import Mathlib

/-!
Verification of the BiteSpeed identity-reconciliation core
(`bitespeed-api/src/services/contactService.ts`).

The contact store is modelled as a list of rows in insertion order together
with the autoincrement counter; Prisma's `createdAt` timestamps are modelled
by the same monotone counter (only their relative order is ever used by the
code, via `orderBy createdAt asc` and the merge tie-break).  Each `await`ed
Prisma call of the service becomes a pure function on the store, and the
service's two `throw` sites plus the JavaScript `TypeError` that occurs when
`primaryContacts[0]` is `undefined` become explicit error values.
-/

namespace BiteSpeed

/-- The `linkPrecedence` column: `"primary"` or `"secondary"`. -/
inductive Precedence where
  | primary
  | secondary
deriving DecidableEq, Repr

/-- A row of the `Contact` table (schema in the repository README):
`id`, optional `email` and `phoneNumber`, optional `linkedId`,
`linkPrecedence`, `createdAt`, and the soft-delete marker `deletedAt`. -/
structure Contact where
  id : Nat
  email : Option String
  phoneNumber : Option String
  linkedId : Option Nat
  linkPrecedence : Precedence
  createdAt : Nat
  deletedAt : Option Nat
deriving DecidableEq, Repr

/-- The contact store: rows in insertion order plus the autoincrement
counter.  A freshly created row receives `id = nextId` and
`createdAt = nextId`. -/
structure Store where
  contacts : List Contact
  nextId : Nat
deriving DecidableEq, Repr

/-- The empty database; Prisma autoincrement ids start at 1. -/
def emptyStore : Store := { contacts := [], nextId := 1 }

/-- JavaScript truthiness of an optional string: `null`, `undefined`
and `""` are falsy. -/
def truthy : Option String → Bool
  | some s => !s.isEmpty
  | none => false

/-- JavaScript `x || null` on an optional string. -/
def orNull : Option String → Option String
  | some s => if s.isEmpty then none else some s
  | none => none

/-- The Prisma `where` filter of `findContactsByEmailOrPhone`:
live rows whose email equals the given email (when supplied and truthy)
or whose phone equals the given phone (when supplied and truthy). -/
def matchesQuery (email phoneNumber : Option String) (c : Contact) : Bool :=
  c.deletedAt == none &&
    ((truthy email && c.email == email) ||
     (truthy phoneNumber && c.phoneNumber == phoneNumber))

/-- Insertion step of the stable sort by `createdAt`. -/
def insertByCreated (c : Contact) : List Contact → List Contact
  | [] => [c]
  | d :: ds => if c.createdAt ≤ d.createdAt then c :: d :: ds else d :: insertByCreated c ds

/-- Stable sort by `createdAt` ascending: models both Prisma's
`orderBy createdAt asc` and the service's `primaryContacts.sort(...)`. -/
def sortByCreated : List Contact → List Contact
  | [] => []
  | c :: cs => insertByCreated c (sortByCreated cs)

/-- `findContactsByEmailOrPhone` of the service: live rows matching the
email or the phone, ascending by `createdAt`. -/
def findContactsByEmailOrPhone (σ : Store) (email phoneNumber : Option String) :
    List Contact :=
  sortByCreated (σ.contacts.filter (matchesQuery email phoneNumber))

/-- The Prisma `where` filter of `findLinkedContacts`: the row with the given
id itself, or rows whose `linkedId` equals it; live rows only. -/
def linkedToQuery (primaryContactId : Nat) (c : Contact) : Bool :=
  (c.id == primaryContactId || c.linkedId == some primaryContactId) &&
    c.deletedAt == none

/-- `findLinkedContacts` of the service: the cluster read, ascending by
`createdAt`. -/
def findLinkedContacts (σ : Store) (primaryContactId : Nat) : List Contact :=
  sortByCreated (σ.contacts.filter (linkedToQuery primaryContactId))

/-- `createPrimaryContact` of the service: insert a fresh primary row. -/
def createPrimaryContact (σ : Store) (email phoneNumber : Option String) :
    Contact × Store :=
  let c : Contact :=
    { id := σ.nextId, email := email, phoneNumber := phoneNumber,
      linkedId := none, linkPrecedence := .primary,
      createdAt := σ.nextId, deletedAt := none }
  (c, { contacts := σ.contacts ++ [c], nextId := σ.nextId + 1 })

/-- `createSecondaryContact` of the service: insert a fresh secondary row
linked to the given primary id. -/
def createSecondaryContact (σ : Store) (email phoneNumber : Option String)
    (primaryContactId : Nat) : Contact × Store :=
  let c : Contact :=
    { id := σ.nextId, email := email, phoneNumber := phoneNumber,
      linkedId := some primaryContactId, linkPrecedence := .secondary,
      createdAt := σ.nextId, deletedAt := none }
  (c, { contacts := σ.contacts ++ [c], nextId := σ.nextId + 1 })

/-- The field update performed by `updateToSecondaryContact`. -/
def demoteRow (newLinkedId : Nat) (c : Contact) : Contact :=
  { c with linkedId := some newLinkedId, linkPrecedence := .secondary }

/-- `updateToSecondaryContact` of the service: Prisma
`update where id` setting `linkedId` and `linkPrecedence = secondary`. -/
def updateToSecondaryContact (σ : Store) (contactId newLinkedId : Nat) : Store :=
  { σ with contacts :=
      σ.contacts.map (fun c => if c.id == contactId then demoteRow newLinkedId c else c) }

/-- First-occurrence deduplication of a list of strings: the insertion
order of the JavaScript `Set` used in `buildConsolidatedResponse`. -/
def dedupKeep : List String → List String
  | [] => []
  | s :: rest => s :: (dedupKeep rest).filter (fun t => t != s)

deriving instance DecidableEq for Except

/-- The `ConsolidatedContact` response interface. -/
structure ConsolidatedContact where
  primaryContactId : Nat
  emails : List String
  phoneNumbers : List String
  secondaryContactIds : List Nat
deriving DecidableEq, Repr

/-- Failure of `buildConsolidatedResponse`
(`throw new Error('No contacts provided')`). -/
inductive BuildError where
  | noContacts
deriving DecidableEq, Repr

/-- Ways `identifyContact` can fail: the explicit validation `throw`,
the JavaScript `TypeError` raised by reading `.id` of the `undefined`
`oldestPrimary` when no matched contact is a primary, and the empty-cluster
`throw` of `buildConsolidatedResponse`. -/
inductive IdentifyError where
  | invalidRequest
  | typeError
  | emptyCluster
deriving DecidableEq, Repr

/-- `buildConsolidatedResponse` of the service. -/
def buildConsolidatedResponse (contacts : List Contact) :
    Except BuildError ConsolidatedContact :=
  match contacts with
  | [] => .error .noContacts
  | c0 :: _ =>
    let primaryContact := (contacts.find? (fun c => c.linkPrecedence == .primary)).getD c0
    let emails := dedupKeep (contacts.filterMap (fun c => orNull c.email))
    let phoneNumbers := dedupKeep (contacts.filterMap (fun c => orNull c.phoneNumber))
    let secondaryContactIds :=
      (contacts.filter (fun c => c.linkPrecedence == .secondary)).map (fun c => c.id)
    .ok { primaryContactId := primaryContact.id, emails := emails,
          phoneNumbers := phoneNumbers, secondaryContactIds := secondaryContactIds }

/-- JavaScript `email ? [email] : []`. -/
def optList : Option String → List String
  | some s => if s.isEmpty then [] else [s]
  | none => []

/-- The service's `hasNewEmail` line: the incoming email is truthy and does
not appear among the (truthy) emails of the matched contacts
(`email && !existingEmails.has(email)`). -/
def hasNewEmailFlag (existing : List Contact) (email : Option String) : Bool :=
  match email with
  | some s => !s.isEmpty && !((existing.filterMap (fun c => orNull c.email)).contains s)
  | none => false

/-- The service's `hasNewPhone` line, analogously. -/
def hasNewPhoneFlag (existing : List Contact) (phoneNumber : Option String) : Bool :=
  match phoneNumber with
  | some s => !s.isEmpty && !((existing.filterMap (fun c => orNull c.phoneNumber)).contains s)
  | none => false

/-- The mutation phase of `identifyContact`: the demotion loop over
`primaryContacts[1..]` (each an `updateToSecondaryContact` keyed by the
snapshot ids) followed by the conditional `createSecondaryContact` when new
information was found. -/
def postMergeStore (σ : Store) (email phoneNumber : Option String)
    (existing : List Contact) (oldestPrimary : Contact)
    (restPrimaries : List Contact) : Store :=
  let σ1 := restPrimaries.foldl
    (fun s c => updateToSecondaryContact s c.id oldestPrimary.id) σ
  if hasNewEmailFlag existing email || hasNewPhoneFlag existing phoneNumber then
    (createSecondaryContact σ1 (orNull email) (orNull phoneNumber) oldestPrimary.id).2
  else σ1

/-- The final phase of `identifyContact`: the fresh cluster read followed by
`buildConsolidatedResponse`. -/
def finishIdentify (σ2 : Store) (oldestPrimaryId : Nat) :
    Except IdentifyError ConsolidatedContact × Store :=
  match buildConsolidatedResponse (findLinkedContacts σ2 oldestPrimaryId) with
  | .ok v => (.ok v, σ2)
  | .error _ => (.error .emptyCluster, σ2)

/-- The row inserted by `createPrimaryContact` during `identifyContact`'s
empty-match branch. -/
def newPrimaryRow (σ : Store) (email phoneNumber : Option String) : Contact :=
  { id := σ.nextId, email := orNull email, phoneNumber := orNull phoneNumber,
    linkedId := none, linkPrecedence := .primary,
    createdAt := σ.nextId, deletedAt := none }

/-- The row inserted by `createSecondaryContact` during `identifyContact`'s
new-information step. -/
def newSecondaryRow (σ : Store) (email phoneNumber : Option String)
    (oldestPrimaryId : Nat) : Contact :=
  { id := σ.nextId, email := orNull email, phoneNumber := orNull phoneNumber,
    linkedId := some oldestPrimaryId, linkPrecedence := .secondary,
    createdAt := σ.nextId, deletedAt := none }

/-- The row transformation the demotion loop applies to the whole table:
demote exactly the rows whose id is among the loop's targets. -/
def demoteIfIn (ids : List Nat) (newLinkedId : Nat) (c : Contact) : Contact :=
  if ids.contains c.id then demoteRow newLinkedId c else c

/-- `identifyContact` of the service, as a pure state-passing function.
The returned store is the database after the call (unchanged on the
validation error and on the `TypeError`, both of which occur before any
mutation). -/
def identifyContact (σ : Store) (email phoneNumber : Option String) :
    Except IdentifyError ConsolidatedContact × Store :=
  if !(truthy email || truthy phoneNumber) then
    (.error .invalidRequest, σ)
  else
    match findContactsByEmailOrPhone σ email phoneNumber with
    | [] =>
      let r := createPrimaryContact σ (orNull email) (orNull phoneNumber)
      (.ok { primaryContactId := r.1.id, emails := optList email,
             phoneNumbers := optList phoneNumber, secondaryContactIds := [] }, r.2)
    | x :: xs =>
      match sortByCreated ((x :: xs).filter (fun c => c.linkPrecedence == .primary)) with
      | [] => (.error .typeError, σ)
      | oldestPrimary :: restPrimaries =>
        finishIdentify
          (postMergeStore σ email phoneNumber (x :: xs) oldestPrimary restPrimaries)
          oldestPrimary.id

/-- Store states reachable from the empty database by finite sequences of
successful `identifyContact` invocations. -/
inductive Reachable : Store → Prop where
  | empty : Reachable emptyStore
  | step (σ : Store) (email phoneNumber : Option String)
      (v : ConsolidatedContact) (σ' : Store) :
      Reachable σ → identifyContact σ email phoneNumber = (.ok v, σ') →
      Reachable σ'

/-- The cluster invariant of spec §3: a primary has no `linkedTo`, and every
secondary's `linkedTo` resolves to a contact that is a primary (one hop,
never another secondary). -/
def ClusterInvariant (σ : Store) : Prop :=
  ∀ c ∈ σ.contacts,
    (c.linkPrecedence = .primary ∧ c.linkedId = none) ∨
    (c.linkPrecedence = .secondary ∧
      ∃ p ∈ σ.contacts, c.linkedId = some p.id ∧ p.linkPrecedence = .primary)

/-- Basic well-formedness of a store state, as guaranteed by the data model
(store-assigned unique ids, monotone `createdAt`, `linkedTo` referencing
already-assigned ids): rows are in ascending `createdAt` order, ids are
distinct, and ids, timestamps and link targets are below the autoincrement
counter.  Every reachable state satisfies this. -/
structure WF (σ : Store) : Prop where
  sorted : σ.contacts.Pairwise (fun a b => a.createdAt ≤ b.createdAt)
  nodupIds : (σ.contacts.map (fun c => c.id)).Nodup
  idLt : ∀ c ∈ σ.contacts, c.id < σ.nextId
  createdLt : ∀ c ∈ σ.contacts, c.createdAt < σ.nextId
  linkedLt : ∀ c ∈ σ.contacts, ∀ l, c.linkedId = some l → l < σ.nextId

/-- Modelled from the spec (§4.4): the `emails` field must list the
primary's own (non-empty) email first, followed by the remaining distinct
non-empty email values of the cluster in order (the cluster sequence being
ascending by `createdAt`), each value once. -/
def specViewEmails (primary : Contact) (cluster : List Contact) : List String :=
  optList primary.email ++
    (dedupKeep (cluster.filterMap (fun c => orNull c.email))).filter
      (fun s => !((optList primary.email).contains s))

/-- Modelled from the spec (§4.4): as `specViewEmails`, for phone numbers. -/
def specViewPhones (primary : Contact) (cluster : List Contact) : List String :=
  optList primary.phoneNumber ++
    (dedupKeep (cluster.filterMap (fun c => orNull c.phoneNumber))).filter
      (fun s => !((optList primary.phoneNumber).contains s))

/-- Does any live contact of the store carry exactly this email value? -/
def emailTaken (σ : Store) (s : String) : Bool :=
  σ.contacts.any (fun c => c.deletedAt == none && c.email == some s)

/-- Does any live contact of the store carry exactly this phone value? -/
def phoneTaken (σ : Store) (s : String) : Bool :=
  σ.contacts.any (fun c => c.deletedAt == none && c.phoneNumber == some s)

/-- Scenario A, contact 1: primary `a@x.com` (created first). -/
def ctA1 : Contact :=
  { id := 1, email := some "a@x.com", phoneNumber := none, linkedId := none,
    linkPrecedence := .primary, createdAt := 1, deletedAt := none }

/-- Scenario A, contact 2: primary `b@y.com` / `222`. -/
def ctA2 : Contact :=
  { id := 2, email := some "b@y.com", phoneNumber := some "222", linkedId := none,
    linkPrecedence := .primary, createdAt := 2, deletedAt := none }

/-- Scenario A, contact 3: secondary `c@z.com` / `222` linked to contact 2. -/
def ctA3 : Contact :=
  { id := 3, email := some "c@z.com", phoneNumber := some "222", linkedId := some 2,
    linkPrecedence := .secondary, createdAt := 3, deletedAt := none }

/-- Scenario A, contact 2 after its demotion under contact 1. -/
def ctA2d : Contact :=
  { ctA2 with linkedId := some 1, linkPrecedence := .secondary }

/-- Scenario A after `identify(email:a@x.com)`. -/
def stA1 : Store := { contacts := [ctA1], nextId := 2 }

/-- Scenario A after `identify(email:b@y.com, phone:222)`. -/
def stA2 : Store := { contacts := [ctA1, ctA2], nextId := 3 }

/-- Scenario A after `identify(email:c@z.com, phone:222)`. -/
def stA3 : Store := { contacts := [ctA1, ctA2, ctA3], nextId := 4 }

/-- Scenario A after the merging call `identify(email:a@x.com, phone:222)`:
contact 2 is demoted but contact 3 still points at it. -/
def stA4 : Store := { contacts := [ctA1, ctA2d, ctA3], nextId := 4 }

/-- Scenario B, contact 2: primary with phone `222` only. -/
def ctB2 : Contact :=
  { id := 2, email := none, phoneNumber := some "222", linkedId := none,
    linkPrecedence := .primary, createdAt := 2, deletedAt := none }

/-- Scenario B, contact 2 after its demotion under contact 1. -/
def ctB2d : Contact :=
  { ctB2 with linkedId := some 1, linkPrecedence := .secondary }

/-- Scenario B after `identify(phone:222)` on `stA1`. -/
def stB2 : Store := { contacts := [ctA1, ctB2], nextId := 3 }

/-- Scenario B after the merging call `identify(email:a@x.com, phone:222)`. -/
def stB3 : Store := { contacts := [ctA1, ctB2d], nextId := 3 }

/-- Scenario C, contact 1: primary `a@x.com` / `111`. -/
def ctC1 : Contact :=
  { id := 1, email := some "a@x.com", phoneNumber := some "111", linkedId := none,
    linkPrecedence := .primary, createdAt := 1, deletedAt := none }

/-- Scenario C, contact 2: secondary `b@y.com` / `111` linked to contact 1. -/
def ctC2 : Contact :=
  { id := 2, email := some "b@y.com", phoneNumber := some "111", linkedId := some 1,
    linkPrecedence := .secondary, createdAt := 2, deletedAt := none }

/-- Scenario C after `identify(email:a@x.com, phone:111)`. -/
def stC1 : Store := { contacts := [ctC1], nextId := 2 }

/-- Scenario C after `identify(email:b@y.com, phone:111)`. -/
def stC2 : Store := { contacts := [ctC1, ctC2], nextId := 3 }

/-- Scenario D, contact 2: the secondary created by
`identify(email:a@x.com, phone:222)` on `stC1`, duplicating contact 1's
email. -/
def ctD2 : Contact :=
  { id := 2, email := some "a@x.com", phoneNumber := some "222", linkedId := some 1,
    linkPrecedence := .secondary, createdAt := 2, deletedAt := none }

/-- Scenario D after the duplicating call. -/
def stD2 : Store := { contacts := [ctC1, ctD2], nextId := 3 }

lemma reach_stA1 : Reachable stA1 :=
  Reachable.step emptyStore (some "a@x.com") none ⟨1, ["a@x.com"], [], []⟩ stA1 Reachable.empty (by decide)

lemma reach_stA2 : Reachable stA2 :=
  Reachable.step stA1 (some "b@y.com") (some "222") ⟨2, ["b@y.com"], ["222"], []⟩ stA2 reach_stA1 (by decide)

lemma reach_stA3 : Reachable stA3 :=
  Reachable.step stA2 (some "c@z.com") (some "222") ⟨2, ["b@y.com", "c@z.com"], ["222"], [3]⟩ stA3 reach_stA2 (by decide)

lemma reach_stB2 : Reachable stB2 :=
  Reachable.step stA1 none (some "222") ⟨2, [], ["222"], []⟩ stB2 reach_stA1 (by decide)

lemma reach_stB3 : Reachable stB3 :=
  Reachable.step stB2 (some "a@x.com") (some "222") ⟨1, ["a@x.com"], ["222"], [2]⟩ stB3 reach_stB2 (by decide)

lemma reach_stC1 : Reachable stC1 :=
  Reachable.step emptyStore (some "a@x.com") (some "111") ⟨1, ["a@x.com"], ["111"], []⟩ stC1 Reachable.empty (by decide)

lemma reach_stC2 : Reachable stC2 :=
  Reachable.step stC1 (some "b@y.com") (some "111") ⟨1, ["a@x.com", "b@y.com"], ["111"], [2]⟩ stC2 reach_stC1 (by decide)

/-- C1: the one-primary-per-cluster / one-hop invariant is violated on a
reachable store state.  After `identify(a@x.com)`, `identify(b@y.com, 222)`,
`identify(c@z.com, 222)` and the merging call `identify(a@x.com, 222)`, the
store `stA4` is reachable, yet contact 3 is a secondary whose `linkedTo` is
contact 2, itself now a secondary — no cluster primary it resolves to. -/
theorem merge_violates_one_hop_invariant :
    Reachable stA4 ∧ ¬ ClusterInvariant stA4 :=
  ⟨Reachable.step stA3 (some "a@x.com") (some "222")
      ⟨1, ["a@x.com", "b@y.com"], ["222"], [2]⟩ stA4 reach_stA3 (by decide),
   by unfold ClusterInvariant; decide⟩

/-- C2: demoting primary 2 under surviving primary 1 does not re-target
contact 3 (whose `linkedTo` referenced 2): after the merge, contact 3 still
has `linkedTo = 2`, contact 2 is a secondary, and the fresh cluster read of
primary 1 excludes contact 3 entirely (the returned view lists only
secondary 2). -/
theorem demotion_does_not_retarget_dependents :
    Reachable stA3 ∧
    identifyContact stA3 (some "a@x.com") (some "222") =
      (.ok ⟨1, ["a@x.com", "b@y.com"], ["222"], [2]⟩, stA4) ∧
    ctA3 ∈ stA4.contacts ∧ ctA3.linkedId = some ctA2d.id ∧
    ctA2d ∈ stA4.contacts ∧ ctA2d.linkPrecedence = .secondary ∧
    findLinkedContacts stA4 ctA1.id = [ctA1, ctA2d] :=
  ⟨reach_stA3, by decide, by decide, by decide, by decide, by decide, by decide⟩

/-- C3: merging two primaries does return the older primary's id (first
conjunct after reachability), but the subsequent `identify(phone: 222)`
does not resolve to primary 1: the match set holds only the demoted
secondary, `primaryContacts[0]` is `undefined`, and the call dies with a
`TypeError` instead of answering. -/
theorem merged_phone_lookup_fails_not_resolves :
    Reachable stB2 ∧
    identifyContact stB2 (some "a@x.com") (some "222") =
      (.ok ⟨1, ["a@x.com"], ["222"], [2]⟩, stB3) ∧
    (identifyContact stB3 none (some "222")).1 = .error .typeError :=
  ⟨reach_stB2, by decide, by decide⟩

/-- C4: on the reachable state `stC2` the valid request
`identify(email: b@y.com)` produces a non-empty match set containing only
the secondary contact 2, and the call fails with the unspecified
`TypeError` (not a §7 error kind): the surviving primary the code selects
is `undefined`. -/
theorem secondary_only_match_unspecified_failure :
    Reachable stC2 ∧ truthy (some "b@y.com") = true ∧
    findContactsByEmailOrPhone stC2 (some "b@y.com") none = [ctC2] ∧
    ctC2.linkPrecedence = .secondary ∧
    identifyContact stC2 (some "b@y.com") none = (.error .typeError, stC2) :=
  ⟨reach_stC2, by decide, by decide, by decide, by decide⟩

/-- C6 counterexample: the engine does create a contact whose email
duplicates a live contact's email.  On the reachable state `stC1`
(one live primary with email `a@x.com`), `identify(a@x.com, 222)` creates
secondary contact 2 carrying the full incoming fields, so two distinct live
contacts now share the email `a@x.com`. -/
theorem secondary_creation_duplicates_live_email :
    Reachable stC1 ∧ emailTaken stC1 "a@x.com" = true ∧
    identifyContact stC1 (some "a@x.com") (some "222") =
      (.ok ⟨1, ["a@x.com"], ["111", "222"], [2]⟩, stD2) ∧
    ctC1 ∈ stD2.contacts ∧ ctD2 ∈ stD2.contacts ∧ ctC1.id ≠ ctD2.id ∧
    ctC1.email = some "a@x.com" ∧ ctD2.email = some "a@x.com" ∧
    ctC1.deletedAt = none ∧ ctD2.deletedAt = none :=
  ⟨reach_stC1, by decide, by decide, by decide, by decide, by decide,
   by decide, by decide, by decide, by decide⟩

/-- C8: the code runs its store operations without any transaction or lock,
so two concurrent first-time `identify` calls with the same unseen
`(email, phone)` can both observe an empty match (both reads against the
initial store) and then both insert: the interleaving
read-A, read-B, write-A, write-B yields two live primaries for the same
identity, and the two callers observe different `primaryContactId`s
(1 and 2). -/
theorem interleaved_first_requests_create_two_primaries :
    findContactsByEmailOrPhone emptyStore (some "x@y.com") (some "999") = [] ∧
    (createPrimaryContact emptyStore (some "x@y.com") (some "999")).1.id = 1 ∧
    (createPrimaryContact
      (createPrimaryContact emptyStore (some "x@y.com") (some "999")).2
      (some "x@y.com") (some "999")).1.id = 2 ∧
    ((createPrimaryContact
        (createPrimaryContact emptyStore (some "x@y.com") (some "999")).2
        (some "x@y.com") (some "999")).2.contacts.filter
      (fun c => c.linkPrecedence == .primary && c.email == some "x@y.com")).length = 2 := by
  refine ⟨by decide, by decide, by decide, by decide⟩

lemma identify_guarded_not_invalid (σ : Store) (e p : Option String)
    (hg : (truthy e || truthy p) = true) :
    (identifyContact σ e p).1 ≠ .error .invalidRequest := by
  unfold identifyContact
  rw [hg]
  simp only [Bool.not_true, Bool.false_eq_true, if_false]
  split
  · simp
  · split
    · simp
    · unfold finishIdentify
      split <;> simp

/-- C9: `identifyContact` signals `invalidRequest` exactly when both fields
are absent (JavaScript-falsy), and in that case it returns with the store
untouched — no query and no mutation has happened. -/
theorem invalid_request_iff_both_absent (σ : Store) (e p : Option String) :
    ((identifyContact σ e p).1 = .error .invalidRequest ↔
      (truthy e = false ∧ truthy p = false)) ∧
    (truthy e = false → truthy p = false →
      identifyContact σ e p = (.error .invalidRequest, σ)) := by
  have hmain : ∀ (he : truthy e = false) (hp : truthy p = false),
      identifyContact σ e p = (.error .invalidRequest, σ) := by
    intro he hp
    simp [identifyContact, he, hp]
  refine ⟨⟨?_, ?_⟩, hmain⟩
  · intro h
    by_cases he : truthy e = false
    · by_cases hp : truthy p = false
      · exact ⟨he, hp⟩
      · exact absurd h (identify_guarded_not_invalid σ e p
          (by simp [Bool.not_eq_false] at hp; simp [hp]))
    · exact absurd h (identify_guarded_not_invalid σ e p
        (by simp [Bool.not_eq_false] at he; simp [he]))
  · intro ⟨he, hp⟩
    rw [hmain he hp]

/-- Witness for C9 at the concrete empty request on the empty store. -/
theorem invalid_request_iff_both_absent_witness :
    (identifyContact emptyStore none none).1 = .error .invalidRequest ∧
    identifyContact emptyStore none none = (.error .invalidRequest, emptyStore) :=
  ⟨((invalid_request_iff_both_absent emptyStore none none).1).2 ⟨rfl, rfl⟩,
   (invalid_request_iff_both_absent emptyStore none none).2 rfl rfl⟩

/-- C10: the view builder fails only on the empty sequence; on a non-empty
sequence with no primary it falls back to the first contact for
`primaryContactId` while still listing every (secondary) member's id. -/
theorem build_view_without_primary_falls_back :
    (∀ l : List Contact, buildConsolidatedResponse l = .error .noContacts ↔ l = []) ∧
    (∀ (c : Contact) (rest : List Contact),
      (∀ d ∈ c :: rest, d.linkPrecedence ≠ .primary) →
      buildConsolidatedResponse (c :: rest) =
        .ok { primaryContactId := c.id,
              emails := dedupKeep ((c :: rest).filterMap (fun d => orNull d.email)),
              phoneNumbers := dedupKeep ((c :: rest).filterMap (fun d => orNull d.phoneNumber)),
              secondaryContactIds := (c :: rest).map (fun d => d.id) }) := by
  constructor
  · intro l
    cases l with
    | nil => simp [buildConsolidatedResponse]
    | cons c rest => simp [buildConsolidatedResponse]
  · intro c rest hall
    have hfind : (c :: rest).find? (fun d => d.linkPrecedence == .primary) = none := by
      rw [List.find?_eq_none]
      intro d hd
      simpa using hall d hd
    have hfilter : (c :: rest).filter (fun d => d.linkPrecedence == .secondary) = c :: rest := by
      rw [List.filter_eq_self]
      intro d hd
      cases hh : d.linkPrecedence
      · exact absurd hh (hall d hd)
      · simp
    simp [buildConsolidatedResponse, hfind, hfilter]

/-- Witness for C10: a singleton all-secondary cluster; the view builder
falls back to that contact and lists it among the secondary ids too. -/
theorem build_view_without_primary_falls_back_witness :
    buildConsolidatedResponse
      [{ id := 7, email := some "s@x.com", phoneNumber := none, linkedId := some 2,
         linkPrecedence := .secondary, createdAt := 5, deletedAt := none }] =
      .ok { primaryContactId := 7, emails := ["s@x.com"], phoneNumbers := [],
            secondaryContactIds := [7] } :=
  (build_view_without_primary_falls_back.2
    { id := 7, email := some "s@x.com", phoneNumber := none, linkedId := some 2,
      linkPrecedence := .secondary, createdAt := 5, deletedAt := none }
    [] (by decide)).trans (by decide)

lemma filter_idem {α : Type} (q : α → Bool) (l : List α) :
    (l.filter q).filter q = l.filter q := by
  induction l with
  | nil => rfl
  | cons a l ih =>
    cases hq : q a <;> simp [List.filter_cons, hq, ih]

lemma filterMap_cons_toList (f : Contact → Option String) (P : Contact)
    (rest : List Contact) :
    (P :: rest).filterMap f = (f P).toList ++ rest.filterMap f := by
  cases h : f P <;> simp [List.filterMap_cons, h]

lemma dedupKeep_primary_first (v : Option String) (l : List String) :
    optList v ++ (dedupKeep ((orNull v).toList ++ l)).filter
        (fun s => !((optList v).contains s)) =
      dedupKeep ((orNull v).toList ++ l) := by
  cases v with
  | none =>
    simp [orNull, optList, List.filter_eq_self]
  | some s =>
    by_cases hs : s.isEmpty
    · simp [orNull, optList, hs, List.filter_eq_self]
    · have ho : orNull (some s) = some s := by simp [orNull, hs]
      have hl : optList (some s) = [s] := by simp [optList, hs]
      rw [ho, hl, Option.toList_some]
      simp only [List.singleton_append]
      rw [show dedupKeep (s :: l) = s :: (dedupKeep l).filter (fun t => t != s) from rfl]
      rw [List.filter_cons]
      have hhead : ¬ ((!([s].contains s)) = true) := by simp
      rw [if_neg hhead]
      have hsame : ((dedupKeep l).filter (fun t => t != s)).filter
          (fun t => !([s].contains t)) = (dedupKeep l).filter (fun t => t != s) := by
        have hcongr : ∀ t : String, (!([s].contains t)) = (t != s) := by
          intro t
          simp only [List.contains, List.any_cons, List.any_nil, Bool.or_false, bne,
            Bool.not_not]
          by_cases h : t = s <;> simp [h]
        calc ((dedupKeep l).filter (fun t => t != s)).filter (fun t => !([s].contains t))
            = ((dedupKeep l).filter (fun t => t != s)).filter (fun t => t != s) := by
              apply List.filter_congr
              intro t _
              exact hcongr t
          _ = (dedupKeep l).filter (fun t => t != s) := filter_idem _ _
      rw [hsame]

/-- C7: on a cluster sequence as read from the store — non-empty, the
primary first (it is the oldest member), every other member secondary,
ascending by `createdAt` — the view builder returns exactly the spec's
ordering: the primary's own non-empty email (then phone) first, followed by
the remaining distinct non-empty values in the order of the owning
contacts, each value once; and `secondaryContactIds` are the non-primary
members' ids in ascending `createdAt` order. -/
theorem view_builder_matches_spec_order (P : Contact) (rest : List Contact)
    (hP : P.linkPrecedence = .primary)
    (hsec : ∀ c ∈ rest, c.linkPrecedence = .secondary)
    (hsorted : (P :: rest).Pairwise (fun a b => a.createdAt ≤ b.createdAt)) :
    buildConsolidatedResponse (P :: rest) =
      .ok { primaryContactId := P.id,
            emails := specViewEmails P (P :: rest),
            phoneNumbers := specViewPhones P (P :: rest),
            secondaryContactIds := rest.map (fun c => c.id) } := by
  have hfind : (P :: rest).find? (fun c => c.linkPrecedence == .primary) = some P := by
    simp [List.find?_cons, hP]
  have hfilter : (P :: rest).filter (fun c => c.linkPrecedence == .secondary) = rest := by
    rw [List.filter_cons]
    have : ¬ ((P.linkPrecedence == Precedence.secondary) = true) := by
      simp [hP]
    rw [if_neg this, List.filter_eq_self]
    intro d hd
    simp [hsec d hd]
  have hemail :
      specViewEmails P (P :: rest) =
        dedupKeep ((P :: rest).filterMap (fun c => orNull c.email)) := by
    unfold specViewEmails
    rw [filterMap_cons_toList]
    exact dedupKeep_primary_first P.email (rest.filterMap (fun c => orNull c.email))
  have hphone :
      specViewPhones P (P :: rest) =
        dedupKeep ((P :: rest).filterMap (fun c => orNull c.phoneNumber)) := by
    unfold specViewPhones
    rw [filterMap_cons_toList]
    exact dedupKeep_primary_first P.phoneNumber
      (rest.filterMap (fun c => orNull c.phoneNumber))
  simp [buildConsolidatedResponse, hfind, hfilter, hemail, hphone]

/-- Witness for C7 at the concrete two-member cluster of scenario C. -/
theorem view_builder_matches_spec_order_witness :
    buildConsolidatedResponse [ctC1, ctC2] =
      .ok { primaryContactId := 1, emails := ["a@x.com", "b@y.com"],
            phoneNumbers := ["111"], secondaryContactIds := [2] } :=
  (view_builder_matches_spec_order ctC1 [ctC2] (by decide) (by decide)
    (by simp [List.pairwise_cons, ctC1, ctC2])).trans (by decide)

lemma insertByCreated_eq_cons {c : Contact} {l : List Contact}
    (h : ∀ d ∈ l, c.createdAt ≤ d.createdAt) : insertByCreated c l = c :: l := by
  cases l with
  | nil => rfl
  | cons d ds =>
    unfold insertByCreated
    rw [if_pos (h d (List.mem_cons_self d ds))]

lemma sortByCreated_eq_self {l : List Contact}
    (h : l.Pairwise (fun a b => a.createdAt ≤ b.createdAt)) : sortByCreated l = l := by
  induction l with
  | nil => rfl
  | cons c cs ih =>
    rw [List.pairwise_cons] at h
    unfold sortByCreated
    rw [ih h.2]
    exact insertByCreated_eq_cons h.1

lemma insertByCreated_ne_nil (c : Contact) (l : List Contact) :
    insertByCreated c l ≠ [] := by
  cases l with
  | nil => simp [insertByCreated]
  | cons d ds =>
    unfold insertByCreated
    split <;> simp

lemma sortByCreated_eq_nil_iff {l : List Contact} : sortByCreated l = [] ↔ l = [] := by
  cases l with
  | nil => simp [sortByCreated]
  | cons c cs =>
    unfold sortByCreated
    simp [insertByCreated_ne_nil]

lemma orNull_eq_self {o : Option String} (h : truthy o = true) : orNull o = o := by
  cases o with
  | none => simp [truthy] at h
  | some s =>
    simp only [truthy, Bool.not_eq_true'] at h
    simp [orNull, h]

lemma orNull_idem (o : Option String) : orNull (orNull o) = orNull o := by
  cases o with
  | none => rfl
  | some s =>
    by_cases hs : s.isEmpty <;> simp [orNull, hs]

lemma truthy_orNull (o : Option String) : truthy (orNull o) = truthy o := by
  cases o with
  | none => rfl
  | some s =>
    by_cases hs : s.isEmpty <;> simp [orNull, truthy, hs]

lemma matchesQuery_fresh (e p : Option String) (hg : (truthy e || truthy p) = true)
    (c : Contact) (hce : c.email = orNull e) (hcp : c.phoneNumber = orNull p)
    (hcd : c.deletedAt = none) : matchesQuery e p c = true := by
  unfold matchesQuery
  rw [hce, hcp, hcd]
  rcases Bool.or_eq_true_iff.mp hg with he | hp
  · rw [orNull_eq_self he, he]
    simp
  · rw [orNull_eq_self hp, hp]
    simp

lemma identifyContact_of_guard_false (σ : Store) (e p : Option String)
    (hg : (truthy e || truthy p) = false) :
    identifyContact σ e p = (.error .invalidRequest, σ) := by
  unfold identifyContact
  rw [hg]
  rfl

lemma identifyContact_of_match_nil (σ : Store) (e p : Option String)
    (hg : (truthy e || truthy p) = true)
    (hempty : findContactsByEmailOrPhone σ e p = []) :
    identifyContact σ e p =
      (.ok { primaryContactId := σ.nextId, emails := optList e,
             phoneNumbers := optList p, secondaryContactIds := [] },
       { contacts := σ.contacts ++ [newPrimaryRow σ e p], nextId := σ.nextId + 1 }) := by
  unfold identifyContact
  rw [hg, hempty]
  simp [createPrimaryContact, newPrimaryRow]

lemma identifyContact_of_match_cons (σ : Store) (e p : Option String)
    (x oldest : Contact) (xs restp : List Contact)
    (hg : (truthy e || truthy p) = true)
    (hex : findContactsByEmailOrPhone σ e p = x :: xs)
    (hprim : sortByCreated ((x :: xs).filter (fun c => c.linkPrecedence == .primary)) =
      oldest :: restp) :
    identifyContact σ e p =
      finishIdentify (postMergeStore σ e p (x :: xs) oldest restp) oldest.id := by
  unfold identifyContact
  rw [hg, hex]
  simp only [Bool.not_true, Bool.false_eq_true, if_false]
  rw [hprim]

lemma finishIdentify_eq_ok (σ2 σ3 : Store) (oid : Nat) (v : ConsolidatedContact)
    (h : finishIdentify σ2 oid = (.ok v, σ3)) :
    buildConsolidatedResponse (findLinkedContacts σ2 oid) = .ok v ∧ σ3 = σ2 := by
  unfold finishIdentify at h
  split at h
  · rcases Prod.mk.injEq .. ▸ h with ⟨h1, h2⟩
    cases h1
    exact ⟨by assumption, h2.symm⟩
  · simp at h

lemma demoteIfIn_id (ids : List Nat) (oid : Nat) (c : Contact) :
    (demoteIfIn ids oid c).id = c.id := by
  unfold demoteIfIn demoteRow
  split <;> rfl

lemma demoteIfIn_email (ids : List Nat) (oid : Nat) (c : Contact) :
    (demoteIfIn ids oid c).email = c.email := by
  unfold demoteIfIn demoteRow
  split <;> rfl

lemma demoteIfIn_phone (ids : List Nat) (oid : Nat) (c : Contact) :
    (demoteIfIn ids oid c).phoneNumber = c.phoneNumber := by
  unfold demoteIfIn demoteRow
  split <;> rfl

lemma demoteIfIn_createdAt (ids : List Nat) (oid : Nat) (c : Contact) :
    (demoteIfIn ids oid c).createdAt = c.createdAt := by
  unfold demoteIfIn demoteRow
  split <;> rfl

lemma demoteIfIn_deletedAt (ids : List Nat) (oid : Nat) (c : Contact) :
    (demoteIfIn ids oid c).deletedAt = c.deletedAt := by
  unfold demoteIfIn demoteRow
  split <;> rfl

lemma demote_step_compose (tid oid : Nat) (ids : List Nat) (c : Contact) :
    demoteIfIn ids oid (if c.id == tid then demoteRow oid c else c) =
      demoteIfIn (tid :: ids) oid c := by
  by_cases h : c.id = tid
  · simp only [h, beq_self_eq_true, if_true]
    unfold demoteIfIn demoteRow
    simp [List.contains_cons, h]
  · have hb : (c.id == tid) = false := by simp [h]
    rw [hb]
    simp only [Bool.false_eq_true, if_false]
    unfold demoteIfIn
    rw [List.contains_cons]
    have : (c.id == tid) = false := hb
    simp [this]

lemma foldl_update_eq_map (targets : List Contact) (oid : Nat) (σ : Store) :
    targets.foldl (fun s c => updateToSecondaryContact s c.id oid) σ =
      { σ with contacts := σ.contacts.map (demoteIfIn (targets.map (fun c => c.id)) oid) } := by
  induction targets generalizing σ with
  | nil =>
    simp only [List.foldl_nil, List.map_nil]
    have h1 : ∀ c, demoteIfIn [] oid c = c := by
      intro c
      simp [demoteIfIn]
    rw [funext h1]
    simp
  | cons t ts ih =>
    rw [List.foldl_cons, ih]
    unfold updateToSecondaryContact
    simp only [List.map_cons]
    congr 1
    rw [List.map_map]
    apply List.map_congr_left
    intro c _
    exact demote_step_compose t.id oid (ts.map (fun c => c.id)) c

lemma filter_and {α : Type} (p q : α → Bool) (l : List α) :
    l.filter (fun a => p a && q a) = (l.filter p).filter q := by
  induction l with
  | nil => rfl
  | cons a l ih =>
    cases hp : p a <;> cases hq : q a <;> simp [List.filter_cons, hp, hq, ih]

lemma matchesQuery_demoteIfIn (e p : Option String) (ids : List Nat) (oid : Nat)
    (c : Contact) :
    matchesQuery e p (demoteIfIn ids oid c) = matchesQuery e p c := by
  unfold demoteIfIn
  split <;> rfl

lemma filter_matches_map_demote (e p : Option String) (ids : List Nat) (oid : Nat)
    (l : List Contact) :
    (l.map (demoteIfIn ids oid)).filter (matchesQuery e p) =
      (l.filter (matchesQuery e p)).map (demoteIfIn ids oid) := by
  induction l with
  | nil => rfl
  | cons c cs ih =>
    cases hm : matchesQuery e p c <;>
      simp [List.map_cons, List.filter_cons, matchesQuery_demoteIfIn, hm, ih]

lemma filter_isPrim_map_demote (ids : List Nat) (oid : Nat) (l : List Contact) :
    (l.map (demoteIfIn ids oid)).filter (fun c => c.linkPrecedence == .primary) =
      l.filter (fun c => (c.linkPrecedence == .primary) && !(ids.contains c.id)) := by
  induction l with
  | nil => rfl
  | cons c cs ih =>
    rw [List.map_cons, List.filter_cons, List.filter_cons]
    by_cases hc : ids.contains c.id = true
    · have h1 : demoteIfIn ids oid c = demoteRow oid c := by
        unfold demoteIfIn
        rw [if_pos hc]
      have h2 : ((demoteRow oid c).linkPrecedence == Precedence.primary) = false := rfl
      have h3 : (c.linkPrecedence == Precedence.primary && !ids.contains c.id) = false := by
        rw [hc]
        simp
      rw [h1, h2, h3]
      simp only [Bool.false_eq_true, if_false]
      exact ih
    · have hc' : ids.contains c.id = false := by
        cases hcc : ids.contains c.id
        · rfl
        · exact absurd hcc hc
      have h1 : demoteIfIn ids oid c = c := by
        unfold demoteIfIn
        rw [if_neg hc]
      have h3 : (c.linkPrecedence == Precedence.primary && !ids.contains c.id) =
          (c.linkPrecedence == Precedence.primary) := by
        rw [hc']
        simp
      rw [h1, h3]
      cases hp : (c.linkPrecedence == Precedence.primary) <;>
        simp only [hp, Bool.false_eq_true, if_false, if_true, ih]

lemma filterMap_orNull_email_map_demote (ids : List Nat) (oid : Nat) (l : List Contact) :
    (l.map (demoteIfIn ids oid)).filterMap (fun c => orNull c.email) =
      l.filterMap (fun c => orNull c.email) := by
  rw [List.filterMap_map]
  congr 1
  funext c
  simp [Function.comp, demoteIfIn_email]

lemma filterMap_orNull_phone_map_demote (ids : List Nat) (oid : Nat) (l : List Contact) :
    (l.map (demoteIfIn ids oid)).filterMap (fun c => orNull c.phoneNumber) =
      l.filterMap (fun c => orNull c.phoneNumber) := by
  rw [List.filterMap_map]
  congr 1
  funext c
  simp [Function.comp, demoteIfIn_phone]

lemma contains_iff_mem {α : Type} [BEq α] [LawfulBEq α] (l : List α) (a : α) :
    l.contains a = true ↔ a ∈ l := by
  simp

lemma hasNewEmailFlag_false_of_mem (existing : List Contact) (e : Option String)
    (hmem : ∀ s, e = some s → s.isEmpty = false → ∃ c ∈ existing, c.email = some s) :
    hasNewEmailFlag existing e = false := by
  unfold hasNewEmailFlag
  cases e with
  | none => rfl
  | some s =>
    by_cases hs : s.isEmpty
    · simp [hs]
    · have hs' : s.isEmpty = false := by
        cases hb : s.isEmpty
        · rfl
        · exact absurd hb hs
      obtain ⟨c, hc, hce⟩ := hmem s rfl hs'
      have hin : s ∈ existing.filterMap (fun c => orNull c.email) := by
        apply List.mem_filterMap.mpr
        exact ⟨c, hc, by rw [hce]; simp [orNull, hs']⟩
      have hcont : (existing.filterMap (fun c => orNull c.email)).contains s = true :=
        (contains_iff_mem _ _).mpr hin
      show (!s.isEmpty && !((existing.filterMap (fun c => orNull c.email)).contains s)) = false
      rw [hcont]
      simp

lemma hasNewPhoneFlag_false_of_mem (existing : List Contact) (p : Option String)
    (hmem : ∀ s, p = some s → s.isEmpty = false → ∃ c ∈ existing, c.phoneNumber = some s) :
    hasNewPhoneFlag existing p = false := by
  unfold hasNewPhoneFlag
  cases p with
  | none => rfl
  | some s =>
    by_cases hs : s.isEmpty
    · simp [hs]
    · have hs' : s.isEmpty = false := by
        cases hb : s.isEmpty
        · rfl
        · exact absurd hb hs
      obtain ⟨c, hc, hce⟩ := hmem s rfl hs'
      have hin : s ∈ existing.filterMap (fun c => orNull c.phoneNumber) := by
        apply List.mem_filterMap.mpr
        exact ⟨c, hc, by rw [hce]; simp [orNull, hs']⟩
      have hcont : (existing.filterMap (fun c => orNull c.phoneNumber)).contains s = true :=
        (contains_iff_mem _ _).mpr hin
      show (!s.isEmpty && !((existing.filterMap (fun c => orNull c.phoneNumber)).contains s)) = false
      rw [hcont]
      simp

lemma linkedToQuery_false_of_lt (c : Contact) (n : Nat) (hid : c.id < n)
    (hlk : ∀ l, c.linkedId = some l → l < n) : linkedToQuery n c = false := by
  unfold linkedToQuery
  have h1 : (c.id == n) = false := by simp [Nat.ne_of_lt hid]
  have h2 : (c.linkedId == some n) = false := by
    cases hl : c.linkedId with
    | none => rfl
    | some l =>
      have := Nat.ne_of_lt (hlk l hl)
      simp [this]
  rw [h1, h2]
  rfl

lemma buildConsolidatedResponse_singleton_primary (c : Contact)
    (hc : c.linkPrecedence = .primary) :
    buildConsolidatedResponse [c] =
      .ok { primaryContactId := c.id, emails := dedupKeep ((orNull c.email).toList),
            phoneNumbers := dedupKeep ((orNull c.phoneNumber).toList),
            secondaryContactIds := [] } := by
  unfold buildConsolidatedResponse
  have hfind : [c].find? (fun d => d.linkPrecedence == .primary) = some c := by
    simp [List.find?_cons, hc]
  have hsec : [c].filter (fun d => d.linkPrecedence == .secondary) = [] := by
    simp [List.filter_cons, hc]
  have hfm : ∀ (f : Contact → Option String), [c].filterMap f = (f c).toList := by
    intro f
    cases hf : f c <;> simp [List.filterMap_cons, hf]
  simp [hfind, hsec, hfm]

lemma dedupKeep_orNull_toList (o : Option String) :
    dedupKeep (orNull o).toList = optList o := by
  cases o with
  | none => rfl
  | some s => by_cases hs : s.isEmpty <;> simp [orNull, optList, hs, dedupKeep]

lemma idem_of_match_nil (σ : Store) (e p : Option String) (hwf : WF σ)
    (hg : (truthy e || truthy p) = true)
    (hex : findContactsByEmailOrPhone σ e p = []) :
    identifyContact
        { contacts := σ.contacts ++ [newPrimaryRow σ e p], nextId := σ.nextId + 1 } e p =
      (.ok { primaryContactId := σ.nextId, emails := optList e,
             phoneNumbers := optList p, secondaryContactIds := [] },
       { contacts := σ.contacts ++ [newPrimaryRow σ e p], nextId := σ.nextId + 1 }) := by
  have hmatchP : matchesQuery e p (newPrimaryRow σ e p) = true :=
    matchesQuery_fresh e p hg _ rfl rfl rfl
  have hfilter_nil : σ.contacts.filter (matchesQuery e p) = [] := by
    unfold findContactsByEmailOrPhone at hex
    exact sortByCreated_eq_nil_iff.mp hex
  have hex2 : findContactsByEmailOrPhone
      { contacts := σ.contacts ++ [newPrimaryRow σ e p], nextId := σ.nextId + 1 } e p =
      [newPrimaryRow σ e p] := by
    unfold findContactsByEmailOrPhone
    rw [show (Store.mk (σ.contacts ++ [newPrimaryRow σ e p]) (σ.nextId + 1)).contacts =
      σ.contacts ++ [newPrimaryRow σ e p] from rfl]
    rw [List.filter_append, hfilter_nil]
    simp [List.filter_cons, hmatchP, sortByCreated, insertByCreated]
  have hprim2 : sortByCreated
      ([newPrimaryRow σ e p].filter (fun c => c.linkPrecedence == .primary)) =
      [newPrimaryRow σ e p] := rfl
  rw [identifyContact_of_match_cons _ e p _ _ [] [] hg hex2 hprim2]
  have hflagE : hasNewEmailFlag [newPrimaryRow σ e p] e = false := by
    apply hasNewEmailFlag_false_of_mem
    intro s hse hs
    refine ⟨newPrimaryRow σ e p, List.mem_singleton.mpr rfl, ?_⟩
    rw [show (newPrimaryRow σ e p).email = orNull e from rfl, hse]
    simp [orNull, hs]
  have hflagP : hasNewPhoneFlag [newPrimaryRow σ e p] p = false := by
    apply hasNewPhoneFlag_false_of_mem
    intro s hse hs
    refine ⟨newPrimaryRow σ e p, List.mem_singleton.mpr rfl, ?_⟩
    rw [show (newPrimaryRow σ e p).phoneNumber = orNull p from rfl, hse]
    simp [orNull, hs]
  have hpost : postMergeStore
      { contacts := σ.contacts ++ [newPrimaryRow σ e p], nextId := σ.nextId + 1 } e p
      [newPrimaryRow σ e p] (newPrimaryRow σ e p) [] =
      { contacts := σ.contacts ++ [newPrimaryRow σ e p], nextId := σ.nextId + 1 } := by
    unfold postMergeStore
    rw [hflagE, hflagP]
    simp
  rw [hpost]
  unfold finishIdentify
  have hlink : findLinkedContacts
      { contacts := σ.contacts ++ [newPrimaryRow σ e p], nextId := σ.nextId + 1 }
      (newPrimaryRow σ e p).id = [newPrimaryRow σ e p] := by
    unfold findLinkedContacts
    rw [show (Store.mk (σ.contacts ++ [newPrimaryRow σ e p]) (σ.nextId + 1)).contacts =
      σ.contacts ++ [newPrimaryRow σ e p] from rfl]
    rw [List.filter_append]
    have hσnil : σ.contacts.filter (linkedToQuery (newPrimaryRow σ e p).id) = [] := by
      rw [List.filter_eq_nil_iff]
      intro c hc
      have h1 := hwf.idLt c hc
      have h2 := hwf.linkedLt c hc
      have h3 := linkedToQuery_false_of_lt c σ.nextId h1 h2
      rw [show (newPrimaryRow σ e p).id = σ.nextId from rfl, h3]
      simp
    rw [hσnil]
    have hself : linkedToQuery (newPrimaryRow σ e p).id (newPrimaryRow σ e p) = true := by
      unfold linkedToQuery
      simp [newPrimaryRow]
    simp [List.filter_cons, hself, sortByCreated, insertByCreated]
  rw [hlink]
  rw [buildConsolidatedResponse_singleton_primary _ rfl]
  have h1 : (newPrimaryRow σ e p).email = orNull e := rfl
  have h2 : (newPrimaryRow σ e p).phoneNumber = orNull p := rfl
  rw [h1, h2, orNull_idem, orNull_idem, dedupKeep_orNull_toList, dedupKeep_orNull_toList]
  rfl

lemma orNull_eq_some {o : Option String} {s : String} (h : orNull o = some s) :
    o = some s := by
  cases o with
  | none => simp [orNull] at h
  | some t =>
    by_cases ht : t.isEmpty
    · simp [orNull, ht] at h
    · simp [orNull, ht] at h
      rw [h]

lemma pairwise_le_map_demote (ids : List Nat) (oid : Nat) (l : List Contact)
    (h : l.Pairwise (fun a b => a.createdAt ≤ b.createdAt)) :
    (l.map (demoteIfIn ids oid)).Pairwise (fun a b => a.createdAt ≤ b.createdAt) := by
  rw [List.pairwise_map]
  refine h.imp ?_
  intro a b hab
  rw [demoteIfIn_createdAt, demoteIfIn_createdAt]
  exact hab

lemma idem_second_call (σ : Store) (e p : Option String)
    (x oldest : Contact) (xs restp : List Contact)
    (ids : List Nat) (tail : List Contact) (n2 : Nat) (v : ConsolidatedContact)
    (hg : (truthy e || truthy p) = true)
    (hwfs : σ.contacts.Pairwise (fun a b => a.createdAt ≤ b.createdAt))
    (hMfilter : σ.contacts.filter (matchesQuery e p) = x :: xs)
    (hprimFilter : (x :: xs).filter (fun c => c.linkPrecedence == .primary) =
      oldest :: restp)
    (holdid : ids.contains oldest.id = false)
    (hrest : ∀ r ∈ restp, ids.contains r.id = true)
    (htailq : tail.filter (matchesQuery e p) = tail)
    (htailprim : tail.filter (fun c => c.linkPrecedence == .primary) = [])
    (htail_ge : ∀ a ∈ σ.contacts, ∀ b ∈ tail, a.createdAt ≤ b.createdAt)
    (htail_pw : tail.Pairwise (fun a b => a.createdAt ≤ b.createdAt))
    (hflagE : hasNewEmailFlag (((x :: xs).map (demoteIfIn ids oldest.id)) ++ tail) e = false)
    (hflagP : hasNewPhoneFlag (((x :: xs).map (demoteIfIn ids oldest.id)) ++ tail) p = false)
    (hbuild : buildConsolidatedResponse
      (findLinkedContacts
        { contacts := σ.contacts.map (demoteIfIn ids oldest.id) ++ tail, nextId := n2 }
        oldest.id) = .ok v) :
    identifyContact
        { contacts := σ.contacts.map (demoteIfIn ids oldest.id) ++ tail, nextId := n2 } e p =
      (.ok v,
        { contacts := σ.contacts.map (demoteIfIn ids oldest.id) ++ tail, nextId := n2 }) := by
  have hMpw : (x :: xs).Pairwise (fun a b => a.createdAt ≤ b.createdAt) := by
    rw [← hMfilter]
    exact hwfs.sublist (List.filter_sublist _)
  have hmapf : (σ.contacts.map (demoteIfIn ids oldest.id)).filter (matchesQuery e p) =
      (x :: xs).map (demoteIfIn ids oldest.id) := by
    rw [filter_matches_map_demote, hMfilter]
  have hfind2 : findContactsByEmailOrPhone
      { contacts := σ.contacts.map (demoteIfIn ids oldest.id) ++ tail, nextId := n2 } e p =
      (x :: xs).map (demoteIfIn ids oldest.id) ++ tail := by
    unfold findContactsByEmailOrPhone
    rw [show (Store.mk (σ.contacts.map (demoteIfIn ids oldest.id) ++ tail) n2).contacts =
      σ.contacts.map (demoteIfIn ids oldest.id) ++ tail from rfl]
    rw [List.filter_append, hmapf, htailq]
    apply sortByCreated_eq_self
    rw [List.pairwise_append]
    refine ⟨pairwise_le_map_demote ids oldest.id (x :: xs) hMpw, htail_pw, ?_⟩
    intro a ha b hb
    obtain ⟨c, hc, hac⟩ := List.mem_map.mp ha
    rw [← hac, demoteIfIn_createdAt]
    have hcs : c ∈ σ.contacts := by
      have hmem : c ∈ σ.contacts.filter (matchesQuery e p) := by
        rw [hMfilter]
        exact hc
      exact List.mem_of_mem_filter hmem
    exact htail_ge c hcs b hb
  have hfprim : (((x :: xs).map (demoteIfIn ids oldest.id)) ++ tail).filter
      (fun c => c.linkPrecedence == .primary) = [oldest] := by
    rw [List.filter_append, htailprim, List.append_nil]
    rw [filter_isPrim_map_demote, filter_and, hprimFilter, List.filter_cons]
    have h1 : ((!ids.contains oldest.id) = true) := by
      rw [holdid]
      rfl
    rw [if_pos h1]
    have h2 : restp.filter (fun c => !ids.contains c.id) = [] := by
      rw [List.filter_eq_nil_iff]
      intro r hr
      rw [hrest r hr]
      simp
    rw [h2]
  have hcons : ((x :: xs).map (demoteIfIn ids oldest.id)) ++ tail =
      demoteIfIn ids oldest.id x :: (xs.map (demoteIfIn ids oldest.id) ++ tail) := by
    simp [List.map_cons]
  have hex2 : findContactsByEmailOrPhone
      { contacts := σ.contacts.map (demoteIfIn ids oldest.id) ++ tail, nextId := n2 } e p =
      demoteIfIn ids oldest.id x :: (xs.map (demoteIfIn ids oldest.id) ++ tail) := by
    rw [hfind2, hcons]
  have hprim2 : sortByCreated
      ((demoteIfIn ids oldest.id x :: (xs.map (demoteIfIn ids oldest.id) ++ tail)).filter
        (fun c => c.linkPrecedence == .primary)) = oldest :: [] := by
    rw [← hcons, hfprim]
    rfl
  rw [identifyContact_of_match_cons _ e p _ oldest _ [] hg hex2 hprim2]
  have hpost : postMergeStore
      { contacts := σ.contacts.map (demoteIfIn ids oldest.id) ++ tail, nextId := n2 } e p
      (demoteIfIn ids oldest.id x :: (xs.map (demoteIfIn ids oldest.id) ++ tail)) oldest [] =
      { contacts := σ.contacts.map (demoteIfIn ids oldest.id) ++ tail, nextId := n2 } := by
    unfold postMergeStore
    rw [← hcons, hflagE, hflagP]
    simp
  rw [hpost]
  unfold finishIdentify
  rw [hbuild]

lemma identifyContact_of_match_cons_noprim (σ : Store) (e p : Option String)
    (x : Contact) (xs : List Contact)
    (hg : (truthy e || truthy p) = true)
    (hex : findContactsByEmailOrPhone σ e p = x :: xs)
    (hprim : sortByCreated ((x :: xs).filter (fun c => c.linkPrecedence == .primary)) = []) :
    identifyContact σ e p = (.error .typeError, σ) := by
  unfold identifyContact
  rw [hg, hex]
  simp only [Bool.not_true, Bool.false_eq_true, if_false]
  rw [hprim]

lemma idem_of_match_cons (σ : Store) (e p : Option String) (hwf : WF σ)
    (hg : (truthy e || truthy p) = true)
    (x oldest : Contact) (xs restp : List Contact) (v : ConsolidatedContact)
    (hex : findContactsByEmailOrPhone σ e p = x :: xs)
    (hprim : sortByCreated ((x :: xs).filter (fun c => c.linkPrecedence == .primary)) =
      oldest :: restp)
    (hbuild : buildConsolidatedResponse
      (findLinkedContacts (postMergeStore σ e p (x :: xs) oldest restp) oldest.id) = .ok v) :
    identifyContact (postMergeStore σ e p (x :: xs) oldest restp) e p =
      (.ok v, postMergeStore σ e p (x :: xs) oldest restp) := by
  have hsortM : (σ.contacts.filter (matchesQuery e p)).Pairwise
      (fun a b => a.createdAt ≤ b.createdAt) :=
    hwf.sorted.sublist (List.filter_sublist _)
  have hMfilter : σ.contacts.filter (matchesQuery e p) = x :: xs :=
    (sortByCreated_eq_self hsortM).symm.trans hex
  have hMpw : (x :: xs).Pairwise (fun a b => a.createdAt ≤ b.createdAt) := by
    rw [← hMfilter]
    exact hsortM
  have hprimsorted : ((x :: xs).filter (fun c => c.linkPrecedence == .primary)).Pairwise
      (fun a b => a.createdAt ≤ b.createdAt) :=
    hMpw.sublist (List.filter_sublist _)
  have hprimFilter : (x :: xs).filter (fun c => c.linkPrecedence == .primary) =
      oldest :: restp :=
    (sortByCreated_eq_self hprimsorted).symm.trans hprim
  have hMsub : List.Sublist (x :: xs) σ.contacts := by
    rw [← hMfilter]
    exact List.filter_sublist _
  have hprimsub : List.Sublist (oldest :: restp) σ.contacts := by
    rw [← hprimFilter]
    exact (List.filter_sublist _).trans hMsub
  have hnodup : ((oldest :: restp).map (fun c => c.id)).Nodup :=
    hwf.nodupIds.sublist (hprimsub.map _)
  have holdmem : oldest.id ∉ restp.map (fun c => c.id) := (List.nodup_cons.mp hnodup).1
  have holdid : (restp.map (fun c => c.id)).contains oldest.id = false := by
    cases hb : (restp.map (fun c => c.id)).contains oldest.id
    · rfl
    · exact absurd ((contains_iff_mem _ _).mp hb) holdmem
  have hrest : ∀ r ∈ restp, (restp.map (fun c => c.id)).contains r.id = true := by
    intro r hr
    exact (contains_iff_mem _ _).mpr (List.mem_map_of_mem _ hr)
  by_cases hfl : (hasNewEmailFlag (x :: xs) e || hasNewPhoneFlag (x :: xs) p) = true
  · have hpostEq : postMergeStore σ e p (x :: xs) oldest restp =
        { contacts := σ.contacts.map (demoteIfIn (restp.map (fun c => c.id)) oldest.id) ++
            [newSecondaryRow σ e p oldest.id], nextId := σ.nextId + 1 } := by
      simp only [postMergeStore]
      rw [if_pos hfl, foldl_update_eq_map]
      rfl
    rw [hpostEq] at hbuild ⊢
    refine idem_second_call σ e p x oldest xs restp (restp.map (fun c => c.id))
      [newSecondaryRow σ e p oldest.id] (σ.nextId + 1) v hg hwf.sorted hMfilter hprimFilter
      holdid hrest ?_ ?_ ?_ ?_ ?_ ?_ hbuild
    · have hm : matchesQuery e p (newSecondaryRow σ e p oldest.id) = true :=
        matchesQuery_fresh e p hg _ rfl rfl rfl
      simp [List.filter_cons, hm]
    · rfl
    · intro a ha b hb
      rw [List.mem_singleton] at hb
      rw [hb]
      exact Nat.le_of_lt (hwf.createdLt a ha)
    · exact List.pairwise_singleton _ _
    · apply hasNewEmailFlag_false_of_mem
      intro s hse hsempty
      refine ⟨newSecondaryRow σ e p oldest.id,
        List.mem_append_right _ (List.mem_singleton.mpr rfl), ?_⟩
      rw [show (newSecondaryRow σ e p oldest.id).email = orNull e from rfl, hse]
      simp [orNull, hsempty]
    · apply hasNewPhoneFlag_false_of_mem
      intro s hse hsempty
      refine ⟨newSecondaryRow σ e p oldest.id,
        List.mem_append_right _ (List.mem_singleton.mpr rfl), ?_⟩
      rw [show (newSecondaryRow σ e p oldest.id).phoneNumber = orNull p from rfl, hse]
      simp [orNull, hsempty]
  · have hflE : hasNewEmailFlag (x :: xs) e = false := by
      cases hbe : hasNewEmailFlag (x :: xs) e
      · rfl
      · exact absurd (by rw [hbe]; rfl) hfl
    have hflP : hasNewPhoneFlag (x :: xs) p = false := by
      cases hbp : hasNewPhoneFlag (x :: xs) p
      · rfl
      · exact absurd (by rw [hbp]; simp) hfl
    have hpostEq : postMergeStore σ e p (x :: xs) oldest restp =
        { contacts := σ.contacts.map (demoteIfIn (restp.map (fun c => c.id)) oldest.id) ++ [],
          nextId := σ.nextId } := by
      simp only [postMergeStore]
      rw [if_neg hfl, foldl_update_eq_map, List.append_nil]
    rw [hpostEq] at hbuild ⊢
    refine idem_second_call σ e p x oldest xs restp (restp.map (fun c => c.id))
      [] σ.nextId v hg hwf.sorted hMfilter hprimFilter
      holdid hrest rfl rfl ?_ List.Pairwise.nil ?_ ?_ hbuild
    · intro a ha b hb
      exact absurd hb (List.not_mem_nil b)
    · rw [List.append_nil]
      apply hasNewEmailFlag_false_of_mem
      intro s hse hsempty
      rw [hse] at hflE
      have hflE2 : (!s.isEmpty &&
          !(((x :: xs).filterMap (fun c => orNull c.email)).contains s)) = false := hflE
      have hcont : ((x :: xs).filterMap (fun c => orNull c.email)).contains s = true := by
        cases hb : ((x :: xs).filterMap (fun c => orNull c.email)).contains s
        · rw [hb] at hflE2
          rw [hsempty] at hflE2
          simp at hflE2
        · rfl
      obtain ⟨c, hcM, hce⟩ := List.mem_filterMap.mp ((contains_iff_mem _ _).mp hcont)
      refine ⟨demoteIfIn (restp.map (fun c => c.id)) oldest.id c,
        List.mem_map_of_mem _ hcM, ?_⟩
      rw [demoteIfIn_email]
      exact orNull_eq_some hce
    · rw [List.append_nil]
      apply hasNewPhoneFlag_false_of_mem
      intro s hse hsempty
      rw [hse] at hflP
      have hflP2 : (!s.isEmpty &&
          !(((x :: xs).filterMap (fun c => orNull c.phoneNumber)).contains s)) = false := hflP
      have hcont : ((x :: xs).filterMap (fun c => orNull c.phoneNumber)).contains s = true := by
        cases hb : ((x :: xs).filterMap (fun c => orNull c.phoneNumber)).contains s
        · rw [hb] at hflP2
          rw [hsempty] at hflP2
          simp at hflP2
        · rfl
      obtain ⟨c, hcM, hce⟩ := List.mem_filterMap.mp ((contains_iff_mem _ _).mp hcont)
      refine ⟨demoteIfIn (restp.map (fun c => c.id)) oldest.id c,
        List.mem_map_of_mem _ hcM, ?_⟩
      rw [demoteIfIn_phone]
      exact orNull_eq_some hce

/-- C5: `identifyContact` is idempotent on its second invocation.  For any
well-formed store, if a call succeeds with view `v` and post-state `σ'`,
then repeating the identical call on `σ'` returns exactly the same view and
leaves the store untouched: no contact is created and none is mutated. -/
theorem identify_idempotent (σ : Store) (e p : Option String)
    (v : ConsolidatedContact) (σ' : Store) (hwf : WF σ)
    (h : identifyContact σ e p = (.ok v, σ')) :
    identifyContact σ' e p = (.ok v, σ') := by
  by_cases hg : (truthy e || truthy p) = true
  · cases hex : findContactsByEmailOrPhone σ e p with
    | nil =>
      rw [identifyContact_of_match_nil σ e p hg hex] at h
      have hv := congrArg Prod.fst h
      have hst := congrArg Prod.snd h
      simp only at hv hst
      rw [← hst, ← hv]
      exact idem_of_match_nil σ e p hwf hg hex
    | cons x xs =>
      cases hprim : sortByCreated
          ((x :: xs).filter (fun c => c.linkPrecedence == .primary)) with
      | nil =>
        rw [identifyContact_of_match_cons_noprim σ e p x xs hg hex hprim] at h
        exact absurd (congrArg Prod.fst h) (by simp)
      | cons oldest restp =>
        rw [identifyContact_of_match_cons σ e p x oldest xs restp hg hex hprim] at h
        obtain ⟨hbuild, hst⟩ := finishIdentify_eq_ok _ _ _ _ h
        rw [hst]
        exact idem_of_match_cons σ e p hwf hg x oldest xs restp v hex hprim hbuild
  · have hgf : (truthy e || truthy p) = false := by
      cases hb : (truthy e || truthy p)
      · rfl
      · exact absurd hb hg
    rw [identifyContact_of_guard_false σ e p hgf] at h
    exact absurd (congrArg Prod.fst h) (by simp)

lemma wf_emptyStore : WF emptyStore := by
  constructor <;> simp [emptyStore]

/-- Witness for C5: re-running the first successful call on its own
post-state returns the identical view and store. -/
theorem identify_idempotent_witness :
    identifyContact stA1 (some "a@x.com") none =
      (.ok { primaryContactId := 1, emails := ["a@x.com"], phoneNumbers := [],
             secondaryContactIds := [] }, stA1) :=
  identify_idempotent emptyStore (some "a@x.com") none
    { primaryContactId := 1, emails := ["a@x.com"], phoneNumbers := [],
      secondaryContactIds := [] } stA1 wf_emptyStore (by decide)

lemma store_mk_contacts (l : List Contact) (n : Nat) : (Store.mk l n).contacts = l := rfl

/-- C6 amended: a newly created *primary* contact never carries an email or
phone value already present on a live contact (the empty-match precondition
guarantees it); the secondary created when new information is found always
carries the full incoming email and phone — so its non-novel field may
duplicate an existing live contact's value, as the counterexample shows. -/
theorem creation_uniqueness_amended (σ : Store) (e p : Option String)
    (r : Except IdentifyError ConsolidatedContact) (σ' : Store) (c : Contact)
    (h : identifyContact σ e p = (r, σ'))
    (hc : c ∈ σ'.contacts.drop σ.contacts.length) :
    (c.linkPrecedence = .primary →
      (∀ s, c.email = some s → emailTaken σ s = false) ∧
      (∀ s, c.phoneNumber = some s → phoneTaken σ s = false)) ∧
    (c.linkPrecedence = .secondary →
      c.email = orNull e ∧ c.phoneNumber = orNull p) := by
  by_cases hg : (truthy e || truthy p) = true
  · cases hex : findContactsByEmailOrPhone σ e p with
    | nil =>
      rw [identifyContact_of_match_nil σ e p hg hex] at h
      have hst : σ' = Store.mk (σ.contacts ++ [newPrimaryRow σ e p]) (σ.nextId + 1) :=
        (congrArg Prod.snd h).symm
      rw [hst, store_mk_contacts] at hc
      rw [List.drop_left, List.mem_singleton] at hc
      subst hc
      have hfilter_nil : σ.contacts.filter (matchesQuery e p) = [] := by
        unfold findContactsByEmailOrPhone at hex
        exact sortByCreated_eq_nil_iff.mp hex
      constructor
      · intro _
        constructor
        · intro s hs
          have he : orNull e = some s := hs
          cases hb : emailTaken σ s
          · rfl
          · exfalso
            unfold emailTaken at hb
            obtain ⟨d, hd, hdp⟩ := List.any_eq_true.mp hb
            simp only [Bool.and_eq_true, beq_iff_eq] at hdp
            obtain ⟨hdel, hdm⟩ := hdp
            have hes : e = some s := orNull_eq_some he
            have hse : s.isEmpty = false := by
              cases hb2 : s.isEmpty
              · rfl
              · rw [hes] at he
                simp [orNull, hb2] at he
            subst hes
            have hmq : matchesQuery (some s) p d = true := by
              simp [matchesQuery, truthy, hse, hdel, hdm]
            have hmem : d ∈ σ.contacts.filter (matchesQuery (some s) p) :=
              List.mem_filter.mpr ⟨hd, hmq⟩
            rw [hfilter_nil] at hmem
            exact absurd hmem (List.not_mem_nil d)
        · intro s hs
          have he : orNull p = some s := hs
          cases hb : phoneTaken σ s
          · rfl
          · exfalso
            unfold phoneTaken at hb
            obtain ⟨d, hd, hdp⟩ := List.any_eq_true.mp hb
            simp only [Bool.and_eq_true, beq_iff_eq] at hdp
            obtain ⟨hdel, hdm⟩ := hdp
            have hes : p = some s := orNull_eq_some he
            have hse : s.isEmpty = false := by
              cases hb2 : s.isEmpty
              · rfl
              · rw [hes] at he
                simp [orNull, hb2] at he
            subst hes
            have hmq : matchesQuery e (some s) d = true := by
              simp [matchesQuery, truthy, hse, hdel, hdm]
            have hmem : d ∈ σ.contacts.filter (matchesQuery e (some s)) :=
              List.mem_filter.mpr ⟨hd, hmq⟩
            rw [hfilter_nil] at hmem
            exact absurd hmem (List.not_mem_nil d)
      · intro hsec
        simp [newPrimaryRow] at hsec
    | cons x xs =>
      cases hprim : sortByCreated
          ((x :: xs).filter (fun c => c.linkPrecedence == .primary)) with
      | nil =>
        rw [identifyContact_of_match_cons_noprim σ e p x xs hg hex hprim] at h
        have hst : σ' = σ := (congrArg Prod.snd h).symm
        rw [hst, List.drop_length] at hc
        exact absurd hc (List.not_mem_nil c)
      | cons oldest restp =>
        rw [identifyContact_of_match_cons σ e p x oldest xs restp hg hex hprim] at h
        have hst : σ' = postMergeStore σ e p (x :: xs) oldest restp := by
          unfold finishIdentify at h
          split at h
          · exact (congrArg Prod.snd h).symm
          · exact (congrArg Prod.snd h).symm
        rw [hst] at hc
        by_cases hfl : (hasNewEmailFlag (x :: xs) e || hasNewPhoneFlag (x :: xs) p) = true
        · have hpostEq : postMergeStore σ e p (x :: xs) oldest restp =
              Store.mk (σ.contacts.map (demoteIfIn (restp.map (fun c => c.id)) oldest.id) ++
                [newSecondaryRow σ e p oldest.id]) (σ.nextId + 1) := by
            simp only [postMergeStore]
            rw [if_pos hfl, foldl_update_eq_map]
            rfl
          rw [hpostEq, store_mk_contacts] at hc
          rw [show σ.contacts.length =
            (σ.contacts.map (demoteIfIn (restp.map (fun c => c.id)) oldest.id)).length from
            (List.length_map ..).symm] at hc
          rw [List.drop_left, List.mem_singleton] at hc
          subst hc
          constructor
          · intro hp
            simp [newSecondaryRow] at hp
          · intro _
            exact ⟨rfl, rfl⟩
        · have hpostEq : postMergeStore σ e p (x :: xs) oldest restp =
              Store.mk (σ.contacts.map (demoteIfIn (restp.map (fun c => c.id)) oldest.id))
                σ.nextId := by
            simp only [postMergeStore]
            rw [if_neg hfl, foldl_update_eq_map]
          rw [hpostEq, store_mk_contacts] at hc
          rw [show σ.contacts.length =
            (σ.contacts.map (demoteIfIn (restp.map (fun c => c.id)) oldest.id)).length from
            (List.length_map ..).symm] at hc
          rw [List.drop_length] at hc
          exact absurd hc (List.not_mem_nil c)
  · have hgf : (truthy e || truthy p) = false := by
      cases hb : (truthy e || truthy p)
      · rfl
      · exact absurd hb hg
    rw [identifyContact_of_guard_false σ e p hgf] at h
    have hst : σ' = σ := (congrArg Prod.snd h).symm
    rw [hst, List.drop_length] at hc
    exact absurd hc (List.not_mem_nil c)

/-- Witness for the amended C6 at the first creation on the empty store. -/
theorem creation_uniqueness_amended_witness :
    emailTaken emptyStore "a@x.com" = false :=
  ((creation_uniqueness_amended emptyStore (some "a@x.com") none
    (.ok { primaryContactId := 1, emails := ["a@x.com"], phoneNumbers := [],
           secondaryContactIds := [] }) stA1 ctA1 (by decide) (by decide)).1
    rfl).1 "a@x.com" rfl

end BiteSpeed
